import Mathlib

/-!
smartctld: the HTTP handlers of `main.go`.

A shallow embedding of `listDrivesHandler` and `driveHandler`.  The two
collaborator libraries (block-device enumeration and the SMART reader) are
an arbitrary state-passing `World`: every call may answer differently, so a
statement quantified over all worlds and all states covers every behaviour
of enumeration, open, read and close.  Errors are represented by their
message (`err.Error()`), response bodies by the text or JSON document
written to the `http.ResponseWriter`.
-/

namespace Smartctld

/-! ## Collaborator data -/

/-- Storage-controller classification reported by the enumeration library
for a disk; `VirtIO` is the only value the handlers look at. -/
inductive StorageController where
  | Unknown
  | IDE
  | SCSI
  | NVMe
  | VirtIO
  | MMC
  | Loop
  deriving DecidableEq, Repr

/-- One enumerated disk: its short name and its controller classification. -/
structure Disk where
  Name : String
  StorageController : StorageController
  deriving DecidableEq, Repr

/-- Result of a successful enumeration (`blockInfo`). -/
structure BlockInfo where
  Disks : List Disk
  deriving DecidableEq, Repr

/-- The five generic attributes returned by the SMART reader. -/
structure GenericAttributes where
  Temperature : Nat
  Read : Nat
  Written : Nat
  PowerOnHours : Nat
  PowerCycles : Nat
  deriving DecidableEq, Repr

/-- An opened device. -/
abbrev Handle := Nat

/-- The collaborators as a state-passing environment over states `σ`:
`Block` is enumeration, `Open` opens a path, `ReadGenericAttributes` reads
from a handle, `Close` releases a handle.  A failure carries its message. -/
structure World (σ : Type) where
  Block : σ → Except String BlockInfo × σ
  Open : σ → String → Except String Handle × σ
  ReadGenericAttributes : σ → Handle → Except String GenericAttributes × σ
  Close : σ → Handle → σ

/-! ## Go values -/

/-- A Go slice value: `none` is the nil slice. -/
abbrev Slice (α : Type) := Option (List α)

/-- Elements of a slice; the nil slice has none. -/
def Slice.toList {α : Type} : Slice α → List α
  | none => []
  | some xs => xs

/-- Go `append(s, x)`: appending to the nil slice allocates. -/
def Slice.append {α : Type} (s : Slice α) (x : α) : Slice α :=
  some (Slice.toList s ++ [x])

/-- A Go `map[string]interface{}` holding numbers, as its key/value pairs;
`none` is the nil map. -/
abbrev AttrMap := Option (List (String × Nat))

/-- SmartResult holds the SMART data or an error for a device. -/
structure SmartResult where
  Device : String
  Data : AttrMap := none
  Error : String := ""
  deriving DecidableEq, Repr

/-! ## JSON documents -/

/-- JSON documents produced by the encoder. -/
inductive Json where
  | null
  | num (n : Nat)
  | str (s : String)
  | arr (xs : List Json)
  | obj (kvs : List (String × Json))
  deriving Repr

/-- Insert a pair into a key-sorted association list (the encoder writes
map entries in increasing key order, compared character by character). -/
def insertKey (k : String) (v : Nat) : List (String × Nat) → List (String × Nat)
  | [] => [(k, v)]
  | (k', v') :: rest =>
    if k.data ≤ k'.data then (k, v) :: (k', v') :: rest else (k', v') :: insertKey k v rest

/-- Pairs of a map in increasing key order. -/
def sortKeys (m : List (String × Nat)) : List (String × Nat) :=
  m.foldr (fun kv acc => insertKey kv.1 kv.2 acc) []

/-- Encoding of a non-nil attribute map: an object with sorted keys. -/
def encodeMap (m : List (String × Nat)) : Json :=
  Json.obj ((sortKeys m).map (fun kv => (kv.1, Json.num kv.2)))

/-- Number of entries of a Go map (`len`); 0 for the nil map. -/
def AttrMap.len : AttrMap → Nat
  | none => 0
  | some m => m.length

/-- The `data,omitempty` field: omitted when the map is nil or empty. -/
def dataField (d : AttrMap) : List (String × Json) :=
  match d with
  | none => []
  | some m => if m.length = 0 then [] else [("data", encodeMap m)]

/-- The `error,omitempty` field: omitted when the string is empty. -/
def errorField (e : String) : List (String × Json) :=
  if e = "" then [] else [("error", Json.str e)]

/-- Encoding of a `SmartResult` following its struct tags
`device`, `data,omitempty`, `error,omitempty`. -/
def SmartResult.toJson (r : SmartResult) : Json :=
  Json.obj (("device", Json.str r.Device) :: (dataField r.Data ++ errorField r.Error))

/-- Encoding of a `[]SmartResult`: the nil slice encodes as `null`. -/
def encodeResults : Slice SmartResult → Json
  | none => Json.null
  | some rs => Json.arr (rs.map SmartResult.toJson)

/-! ## HTTP responses -/

/-- What was written to the response body: nothing, plain text, or one JSON
document (followed by a newline). -/
inductive Body where
  | empty
  | text (s : String)
  | json (v : Json)
  deriving Repr

/-- Status, content type and body of a response. -/
structure Response where
  status : Nat
  contentType : String
  body : Body
  deriving Repr

def StatusOK : Nat := 200
def StatusNotFound : Nat := 404
def StatusInternalServerError : Nat := 500

/-- `http.Error(w, msg, code)`: plain-text reply, the message and a newline. -/
def httpError (msg : String) (code : Nat) : Response :=
  { status := code, contentType := "text/plain; charset=utf-8", body := Body.text (msg ++ "\n") }

/-- Setting the JSON content type and encoding `v` without an explicit
`WriteHeader`: status 200. -/
def jsonReply (v : Json) : Response :=
  { status := StatusOK, contentType := "application/json", body := Body.json v }

/-! ## Call traces -/

/-- Calls made on the SMART reader, in order. -/
inductive Event where
  | openOk (path : String) (h : Handle)
  | openFail (path : String)
  | read (h : Handle)
  | close (h : Handle)
  deriving DecidableEq, Repr

/-- What a handler invocation leaves behind: the response, the reader calls
it made, and the final collaborator state. -/
structure Outcome (σ : Type) where
  resp : Response
  trace : List Event
  st : σ

/-- The data map built from the attributes (both handlers build the same). -/
def attrData (attrs : GenericAttributes) : AttrMap :=
  some [("temperature_celsius", attrs.Temperature),
        ("read_blocks", attrs.Read),
        ("written_blocks", attrs.Written),
        ("power_on_hours", attrs.PowerOnHours),
        ("power_cycles", attrs.PowerCycles)]

/-- `strings.TrimPrefix(s, pre)`. -/
def TrimPrefix (s pre : String) : String :=
  if pre.data.isPrefixOf s.data then String.mk (s.data.drop pre.data.length) else s

/-! ## listDrivesHandler -/

/-- Local variables of the loop of `listDrivesHandler`: the `results`
slice, the stack of deferred `Close` calls (latest first), the reader calls
so far and the collaborator state. -/
structure LoopState (σ : Type) where
  results : Slice SmartResult
  deferred : List Handle
  trace : List Event
  st : σ

/-- One iteration of the loop over `blockInfo.Disks`. -/
def listStep {σ : Type} (w : World σ) (acc : LoopState σ) (disk : Disk) : LoopState σ :=
  if disk.StorageController = StorageController.VirtIO then acc
  else
    let device := disk.Name
    let path := "/dev/" ++ device
    match w.Open acc.st path with
    | (Except.error err, s1) =>
      { results := Slice.append acc.results { Device := device, Error := err }
        deferred := acc.deferred
        trace := acc.trace ++ [Event.openFail path]
        st := s1 }
    | (Except.ok dev, s1) =>
      match w.ReadGenericAttributes s1 dev with
      | (Except.error err, s2) =>
        { results := Slice.append acc.results { Device := device, Error := err }
          deferred := dev :: acc.deferred
          trace := acc.trace ++ [Event.openOk path dev, Event.read dev]
          st := s2 }
      | (Except.ok attrs, s2) =>
        { results := Slice.append acc.results { Device := device, Data := attrData attrs }
          deferred := dev :: acc.deferred
          trace := acc.trace ++ [Event.openOk path dev, Event.read dev]
          st := s2 }

/-- The whole loop, started with the nil slice and nothing deferred. -/
def listLoop {σ : Type} (w : World σ) (disks : List Disk) (s : σ) : LoopState σ :=
  disks.foldl (listStep w) { results := none, deferred := [], trace := [], st := s }

/-- Running the deferred `Close` calls at function return, latest first. -/
def runDeferred {σ : Type} (w : World σ) (hs : List Handle) (s : σ) : σ :=
  hs.foldl w.Close s

/-- The handler `listDrivesHandler`. -/
def listDrivesHandler {σ : Type} (w : World σ) (s : σ) : Outcome σ :=
  match w.Block s with
  | (Except.error err, s1) =>
    { resp := httpError ("Failed to enumerate block devices: " ++ err) StatusInternalServerError
      trace := []
      st := s1 }
  | (Except.ok blockInfo, s1) =>
    let fin := listLoop w blockInfo.Disks s1
    { resp := jsonReply (encodeResults fin.results)
      trace := fin.trace ++ fin.deferred.map Event.close
      st := runDeferred w fin.deferred fin.st }

/-! ## driveHandler -/

/-- The search loop of `driveHandler`: is `name` the name of a disk that is
not on a VirtIO controller? -/
def findDrive (disks : List Disk) (name : String) : Bool :=
  match disks with
  | [] => false
  | disk :: rest =>
    if disk.StorageController = StorageController.VirtIO then findDrive rest name
    else if disk.Name = name then true
    else findDrive rest name

/-- The handler `driveHandler`, for a request with URL path `urlPath`. -/
def driveHandler {σ : Type} (w : World σ) (urlPath : String) (s : σ) : Outcome σ :=
  let name := TrimPrefix urlPath "/drives/"
  match w.Block s with
  | (Except.error err, s1) =>
    { resp := httpError ("Failed to enumerate block devices: " ++ err) StatusInternalServerError
      trace := []
      st := s1 }
  | (Except.ok blockInfo, s1) =>
    if findDrive blockInfo.Disks name = false then
      { resp := httpError "Unknown or virtual drive" StatusNotFound
        trace := []
        st := s1 }
    else
      let path := "/dev/" ++ name
      match w.Open s1 path with
      | (Except.error err, s2) =>
        { resp := httpError err StatusInternalServerError
          trace := [Event.openFail path]
          st := s2 }
      | (Except.ok dev, s2) =>
        match w.ReadGenericAttributes s2 dev with
        | (Except.error err, s3) =>
          { resp := jsonReply (SmartResult.toJson { Device := name, Error := err })
            trace := [Event.openOk path dev, Event.read dev, Event.close dev]
            st := w.Close s3 dev }
        | (Except.ok attrs, s3) =>
          { resp := jsonReply (SmartResult.toJson { Device := name, Data := attrData attrs })
            trace := [Event.openOk path dev, Event.read dev, Event.close dev]
            st := w.Close s3 dev }

/-! ## Observations used in the statements -/

/-- Names of the disks that are not on a VirtIO controller, in enumeration
order. -/
def eligibleNames (disks : List Disk) : List String :=
  (disks.filter (fun d => decide (d.StorageController ≠ StorageController.VirtIO))).map Disk.Name

/-- Value stored under key `k` of a JSON object. -/
def Json.field (k : String) : Json → Option Json
  | Json.obj kvs => (kvs.find? (fun kv => kv.1 == k)).map Prod.snd
  | _ => none

/-- Elements of a JSON array. -/
def Json.elems : Json → List Json
  | Json.arr xs => xs
  | _ => []

/-- The string held by a JSON string. -/
def Json.asString : Json → Option String
  | Json.str s => some s
  | _ => none

/-- The `device` field of every element of a JSON body (`none` for an
element without such a string field). -/
def Body.deviceFields : Body → List (Option String)
  | Body.json v => v.elems.map (fun j => (j.field "device").bind Json.asString)
  | _ => []

/-- A result has its `data` populated: the map is non-empty. -/
def SmartResult.hasData (r : SmartResult) : Prop := 0 < AttrMap.len r.Data

/-- A result has its `error` populated: the string is non-empty. -/
def SmartResult.hasError (r : SmartResult) : Prop := r.Error ≠ ""

/-- Keys of an attribute map. -/
def AttrMap.keys : AttrMap → List String
  | none => []
  | some m => m.map Prod.fst

/-- How many successful opens in a trace returned handle `h`. -/
def opened (h : Handle) (tr : List Event) : Nat :=
  tr.countP (fun e => match e with
    | Event.openOk _ k => decide (k = h)
    | _ => false)

/-- How many times a trace closes handle `h`. -/
def closed (h : Handle) (tr : List Event) : Nat :=
  tr.countP (fun e => match e with
    | Event.close k => decide (k = h)
    | _ => false)

/-- A world whose answers do not depend on the state; the state counts the
calls made. -/
def fixedWorld (blk : Except String BlockInfo) (op : String → Except String Handle)
    (rd : Handle → Except String GenericAttributes) : World Nat :=
  { Block := fun s => (blk, s + 1)
    Open := fun s p => (op p, s + 1)
    ReadGenericAttributes := fun s h => (rd h, s + 1)
    Close := fun s _ => s + 1 }

/-- Enumeration of the scenario `[{sda, SCSI}, {vda, VirtIO}]`. -/
def sdaVda : BlockInfo :=
  { Disks := [{ Name := "sda", StorageController := StorageController.SCSI },
              { Name := "vda", StorageController := StorageController.VirtIO }] }

/-- Attributes used in examples. -/
def sampleAttrs : GenericAttributes :=
  { Temperature := 35, Read := 1000, Written := 2000, PowerOnHours := 120, PowerCycles := 7 }

/-- Every open succeeds with handle 3 and every read succeeds. -/
def healthyWorld : World Nat :=
  fixedWorld (Except.ok sdaVda) (fun _ => Except.ok 3) (fun _ => Except.ok sampleAttrs)

/-- Enumeration fails with a permission error. -/
def noEnumWorld : World Nat :=
  fixedWorld (Except.error "permission denied") (fun _ => Except.ok 3)
    (fun _ => Except.ok sampleAttrs)

/-- Enumeration succeeds but every open is refused. -/
def deniedWorld : World Nat :=
  fixedWorld (Except.ok sdaVda) (fun _ => Except.error "permission denied")
    (fun _ => Except.ok sampleAttrs)

/-- Enumeration reports one SCSI disk whose name is the empty string. -/
def emptyNameWorld : World Nat :=
  fixedWorld (Except.ok { Disks := [{ Name := "", StorageController := StorageController.SCSI }] })
    (fun _ => Except.ok 3) (fun _ => Except.ok sampleAttrs)

/-- Enumeration reports VirtIO disks only (a guest with paravirtual disks). -/
def virtualOnlyWorld : World Nat :=
  fixedWorld (Except.ok { Disks := [{ Name := "vda", StorageController := StorageController.VirtIO }] })
    (fun _ => Except.ok 3) (fun _ => Except.ok sampleAttrs)

/-- Every open fails with an error whose message is the empty string. -/
def silentOpenWorld : World Nat :=
  fixedWorld (Except.ok sdaVda) (fun _ => Except.error "") (fun _ => Except.ok sampleAttrs)

/-- Opens succeed; every read fails with an error whose message is the
empty string. -/
def silentReadWorld : World Nat :=
  fixedWorld (Except.ok sdaVda) (fun _ => Except.ok 3) (fun _ => Except.error "")

/-- Shape of a result that never has both fields populated: either no data
map at all, or the five-key data map and an empty error. -/
def SmartResult.wellShaped (r : SmartResult) : Prop :=
  r.Data = none ∨ (r.Error = "" ∧ ∃ attrs, r.Data = attrData attrs)

/-- No failure reported by open or read has the empty string as message. -/
def messagesNonEmpty {σ : Type} (w : World σ) : Prop :=
  (∀ s p s1, w.Open s p ≠ (Except.error "", s1)) ∧
  (∀ s h s1, w.ReadGenericAttributes s h ≠ (Except.error "", s1))

/-- The result both handlers record for the device `name` when open and
read answer as the functions `openF` and `readF`. -/
def queryResult (openF : String → Except String Handle)
    (readF : Handle → Except String GenericAttributes) (name : String) : SmartResult :=
  match openF ("/dev/" ++ name) with
  | Except.error err => { Device := name, Error := err }
  | Except.ok dev =>
    match readF dev with
    | Except.error err => { Device := name, Error := err }
    | Except.ok attrs => { Device := name, Data := attrData attrs }

/-- The world `w` observed: it answers exactly as `w` does, and its state
carries, next to the state of `w`, the log of the reader calls actually
made on it, one event appended by each call of `Open`,
`ReadGenericAttributes` and `Close`. -/
def recording {σ : Type} (w : World σ) : World (σ × List Event) :=
  { Block := fun x => ((w.Block x.1).1, ((w.Block x.1).2, x.2))
    Open := fun x p =>
      match w.Open x.1 p with
      | (Except.error err, s1) => (Except.error err, (s1, x.2 ++ [Event.openFail p]))
      | (Except.ok dev, s1) => (Except.ok dev, (s1, x.2 ++ [Event.openOk p dev]))
    ReadGenericAttributes := fun x h =>
      ((w.ReadGenericAttributes x.1 h).1,
        ((w.ReadGenericAttributes x.1 h).2, x.2 ++ [Event.read h]))
    Close := fun x h => (w.Close x.1 h, x.2 ++ [Event.close h]) }

/-- Loop variables of a run over `recording w` that correspond to the loop
variables `acc` of a run over `w`, the log having started as `log`. -/
def LoopState.observed {σ : Type} (log : List Event) (acc : LoopState σ) :
    LoopState (σ × List Event) :=
  { results := acc.results
    deferred := acc.deferred
    trace := acc.trace
    st := (acc.st, log ++ acc.trace) }

/-! ## Lemmas about the encoder and the loop -/

theorem field_device_toJson (r : SmartResult) :
    (SmartResult.toJson r).field "device" = some (Json.str r.Device) := by
  simp [SmartResult.toJson, Json.field]

theorem deviceFields_encodeResults (rs : Slice SmartResult) :
    Body.deviceFields (Body.json (encodeResults rs)) =
      (Slice.toList rs).map (fun r => some r.Device) := by
  cases rs with
  | none => rfl
  | some xs =>
    simp [Body.deviceFields, encodeResults, Json.elems, Slice.toList, field_device_toJson,
      Json.asString]

theorem eligibleNames_cons (d : Disk) (ds : List Disk) :
    eligibleNames (d :: ds) =
      (if d.StorageController = StorageController.VirtIO then [] else [d.Name]) ++
        eligibleNames ds := by
  unfold eligibleNames
  by_cases hv : d.StorageController = StorageController.VirtIO <;> simp [hv]

theorem listStep_virtio {σ : Type} (w : World σ) (acc : LoopState σ) (d : Disk)
    (hv : d.StorageController = StorageController.VirtIO) : listStep w acc d = acc := by
  simp [listStep, hv]

theorem listStep_devices {σ : Type} (w : World σ) (acc : LoopState σ) (d : Disk) :
    (Slice.toList (listStep w acc d).results).map SmartResult.Device =
      (Slice.toList acc.results).map SmartResult.Device ++
        (if d.StorageController = StorageController.VirtIO then [] else [d.Name]) := by
  by_cases hv : d.StorageController = StorageController.VirtIO
  · simp [listStep, hv]
  · unfold listStep
    simp only [hv, if_false]
    split
    · simp [Slice.append, Slice.toList]
    · split <;> simp [Slice.append, Slice.toList]

theorem foldl_listStep_devices {σ : Type} (w : World σ) (disks : List Disk)
    (acc : LoopState σ) :
    (Slice.toList (disks.foldl (listStep w) acc).results).map SmartResult.Device =
      (Slice.toList acc.results).map SmartResult.Device ++ eligibleNames disks := by
  induction disks generalizing acc with
  | nil => simp [eligibleNames]
  | cons d ds ih =>
    rw [List.foldl_cons, ih, listStep_devices, eligibleNames_cons, List.append_assoc]

theorem listLoop_devices {σ : Type} (w : World σ) (disks : List Disk) (s : σ) :
    (Slice.toList (listLoop w disks s).results).map SmartResult.Device =
      eligibleNames disks := by
  unfold listLoop
  rw [foldl_listStep_devices]
  simp [Slice.toList]

theorem listDrivesHandler_ok {σ : Type} (w : World σ) (s s1 : σ) (info : BlockInfo)
    (hb : w.Block s = (Except.ok info, s1)) :
    listDrivesHandler w s =
      { resp := jsonReply (encodeResults (listLoop w info.Disks s1).results)
        trace := (listLoop w info.Disks s1).trace ++
          (listLoop w info.Disks s1).deferred.map Event.close
        st := runDeferred w (listLoop w info.Disks s1).deferred (listLoop w info.Disks s1).st } := by
  simp [listDrivesHandler, hb]

/-! ## The claims -/

/-- C1: after a successful enumeration, whatever open and read do, the
`device` fields of the array written by `listDrivesHandler` are exactly the
names of the disks that are not on a VirtIO controller, in enumeration
order, one result per such disk, and the status is 200. -/
theorem listDrivesHandler_devices_eligible {σ : Type} (w : World σ) (s s1 : σ)
    (info : BlockInfo) (hb : w.Block s = (Except.ok info, s1)) :
    (listDrivesHandler w s).resp.status = 200 ∧
    Body.deviceFields (listDrivesHandler w s).resp.body =
      (eligibleNames info.Disks).map some ∧
    ∃ rs : Slice SmartResult,
      (listDrivesHandler w s).resp.body = Body.json (encodeResults rs) ∧
      (Slice.toList rs).map SmartResult.Device = eligibleNames info.Disks := by
  rw [listDrivesHandler_ok w s s1 info hb]
  refine ⟨rfl, ?_, _, rfl, listLoop_devices w info.Disks s1⟩
  simp only [jsonReply]
  rw [deviceFields_encodeResults, ← listLoop_devices w info.Disks s1, List.map_map]
  rfl

/-- Witness of C1 on the enumeration `[sda (SCSI), vda (VirtIO)]`. -/
theorem listDrivesHandler_devices_eligible_witness :
    healthyWorld.Block 0 = (Except.ok sdaVda, 1) ∧
    Body.deviceFields (listDrivesHandler healthyWorld 0).resp.body = [some "sda"] :=
  ⟨rfl, (listDrivesHandler_devices_eligible healthyWorld 0 1 sdaVda rfl).2.1⟩

theorem findDrive_eq_false_iff (disks : List Disk) (name : String) :
    findDrive disks name = false ↔
      ∀ d ∈ disks, d.StorageController ≠ StorageController.VirtIO → d.Name ≠ name := by
  induction disks with
  | nil => simp [findDrive]
  | cons d ds ih =>
    unfold findDrive
    by_cases hv : d.StorageController = StorageController.VirtIO
    · simp [hv, ih]
    · by_cases hn : d.Name = name
      · simp [hv, hn]
      · simp [hv, hn, ih]

theorem findDrive_eq_true_iff (disks : List Disk) (name : String) :
    findDrive disks name = true ↔ name ∈ eligibleNames disks := by
  induction disks with
  | nil => simp [findDrive, eligibleNames]
  | cons d ds ih =>
    unfold findDrive
    rw [eligibleNames_cons]
    by_cases hv : d.StorageController = StorageController.VirtIO
    · simp [hv, ih]
    · by_cases hn : d.Name = name
      · simp [hv, hn]
      · have hn' : ¬ name = d.Name := fun h => hn h.symm
        simp [hv, hn, hn', ih]

theorem driveHandler_missing {σ : Type} (w : World σ) (urlPath : String) (s s1 : σ)
    (info : BlockInfo) (hb : w.Block s = (Except.ok info, s1))
    (hf : findDrive info.Disks (TrimPrefix urlPath "/drives/") = false) :
    driveHandler w urlPath s =
      { resp := httpError "Unknown or virtual drive" StatusNotFound, trace := [], st := s1 } := by
  simp [driveHandler, hb, hf]

/-- C4: after a successful enumeration, a requested name that is not the
name of any disk outside the VirtIO controllers (absent, or carried by
VirtIO disks only) gets status 404, and the handler makes no call to open,
read or close: its trace is empty and the collaborator state is the one
left by the enumeration. -/
theorem driveHandler_unknown_404 {σ : Type} (w : World σ) (urlPath : String) (s s1 : σ)
    (info : BlockInfo) (hb : w.Block s = (Except.ok info, s1))
    (hn : ∀ d ∈ info.Disks, d.StorageController ≠ StorageController.VirtIO →
      d.Name ≠ TrimPrefix urlPath "/drives/") :
    (driveHandler w urlPath s).resp.status = 404 ∧
    (driveHandler w urlPath s).trace = [] ∧
    (driveHandler w urlPath s).st = s1 := by
  rw [driveHandler_missing w urlPath s s1 info hb ((findDrive_eq_false_iff _ _).2 hn)]
  exact ⟨rfl, rfl, rfl⟩

/-- Witness of C4: `/drives/vda` names a VirtIO disk of the enumeration. -/
theorem driveHandler_unknown_404_witness :
    healthyWorld.Block 0 = (Except.ok sdaVda, 1) ∧
    TrimPrefix "/drives/vda" "/drives/" = "vda" ∧
    (driveHandler healthyWorld "/drives/vda" 0).resp.status = 404 ∧
    (driveHandler healthyWorld "/drives/vda" 0).trace = [] :=
  ⟨rfl, by decide,
    (driveHandler_unknown_404 healthyWorld "/drives/vda" 0 1 sdaVda rfl (by decide)).1,
    (driveHandler_unknown_404 healthyWorld "/drives/vda" 0 1 sdaVda rfl (by decide)).2.1⟩

/-- C5: when enumeration fails with text `e`, both handlers answer 500 with
the plain-text body `Failed to enumerate block devices: e`, which contains
`e` and is not a JSON document, and make no call to open, read or close;
for `driveHandler` this holds for every request path, so the status is never
404. -/
theorem enumeration_failure_500 {σ : Type} (w : World σ) (urlPath : String) (s s1 : σ)
    (e : String) (hb : w.Block s = (Except.error e, s1)) :
    ((listDrivesHandler w s).resp.status = 500 ∧
      (listDrivesHandler w s).resp.body =
        Body.text ("Failed to enumerate block devices: " ++ e ++ "\n") ∧
      (∃ pre post, (listDrivesHandler w s).resp.body = Body.text (pre ++ e ++ post)) ∧
      (∀ v, (listDrivesHandler w s).resp.body ≠ Body.json v) ∧
      (listDrivesHandler w s).trace = [] ∧ (listDrivesHandler w s).st = s1) ∧
    ((driveHandler w urlPath s).resp.status = 500 ∧
      (driveHandler w urlPath s).resp.status ≠ 404 ∧
      (driveHandler w urlPath s).resp.body =
        Body.text ("Failed to enumerate block devices: " ++ e ++ "\n") ∧
      (∃ pre post, (driveHandler w urlPath s).resp.body = Body.text (pre ++ e ++ post)) ∧
      (∀ v, (driveHandler w urlPath s).resp.body ≠ Body.json v) ∧
      (driveHandler w urlPath s).trace = [] ∧ (driveHandler w urlPath s).st = s1) := by
  have hl : listDrivesHandler w s =
      { resp := httpError ("Failed to enumerate block devices: " ++ e) StatusInternalServerError
        trace := [], st := s1 } := by
    simp [listDrivesHandler, hb]
  have hd : driveHandler w urlPath s =
      { resp := httpError ("Failed to enumerate block devices: " ++ e) StatusInternalServerError
        trace := [], st := s1 } := by
    simp [driveHandler, hb]
  rw [hl, hd]
  refine ⟨⟨rfl, rfl, ⟨"Failed to enumerate block devices: ", "\n", rfl⟩, ?_, rfl, rfl⟩,
    ⟨rfl, ?_, rfl, ⟨"Failed to enumerate block devices: ", "\n", rfl⟩, ?_, rfl, rfl⟩⟩
  · intro v h
    simp [httpError] at h
  · simp [httpError, StatusInternalServerError]
  · intro v h
    simp [httpError] at h

/-- Witness of C5: enumeration fails with `permission denied`. -/
theorem enumeration_failure_500_witness :
    noEnumWorld.Block 0 = (Except.error "permission denied", 1) ∧
    (listDrivesHandler noEnumWorld 0).resp.status = 500 ∧
    (driveHandler noEnumWorld "/drives/sda" 0).resp.status = 500 ∧
    (driveHandler noEnumWorld "/drives/sda" 0).resp.body =
      Body.text "Failed to enumerate block devices: permission denied\n" :=
  ⟨rfl, (enumeration_failure_500 noEnumWorld "/drives/sda" 0 1 "permission denied" rfl).1.1,
    (enumeration_failure_500 noEnumWorld "/drives/sda" 0 1 "permission denied" rfl).2.1,
    (enumeration_failure_500 noEnumWorld "/drives/sda" 0 1 "permission denied" rfl).2.2.2.1⟩

theorem driveHandler_found {σ : Type} (w : World σ) (urlPath : String) (s s1 : σ)
    (info : BlockInfo) (hb : w.Block s = (Except.ok info, s1))
    (hf : findDrive info.Disks (TrimPrefix urlPath "/drives/") = true) :
    driveHandler w urlPath s =
      match w.Open s1 ("/dev/" ++ TrimPrefix urlPath "/drives/") with
      | (Except.error err, s2) =>
        { resp := httpError err StatusInternalServerError
          trace := [Event.openFail ("/dev/" ++ TrimPrefix urlPath "/drives/")]
          st := s2 }
      | (Except.ok dev, s2) =>
        match w.ReadGenericAttributes s2 dev with
        | (Except.error err, s3) =>
          { resp := jsonReply (SmartResult.toJson
              { Device := TrimPrefix urlPath "/drives/", Error := err })
            trace := [Event.openOk ("/dev/" ++ TrimPrefix urlPath "/drives/") dev,
              Event.read dev, Event.close dev]
            st := w.Close s3 dev }
        | (Except.ok attrs, s3) =>
          { resp := jsonReply (SmartResult.toJson
              { Device := TrimPrefix urlPath "/drives/", Data := attrData attrs })
            trace := [Event.openOk ("/dev/" ++ TrimPrefix urlPath "/drives/") dev,
              Event.read dev, Event.close dev]
            st := w.Close s3 dev } := by
  simp [driveHandler, hb, hf]

theorem findDrive_of_exists (disks : List Disk) (name : String)
    (h : ∃ d ∈ disks, d.StorageController ≠ StorageController.VirtIO ∧ d.Name = name) :
    findDrive disks name = true := by
  cases hfd : findDrive disks name with
  | true => rfl
  | false =>
    obtain ⟨d, hd, hv, hn⟩ := h
    exact absurd hn ((findDrive_eq_false_iff disks name).1 hfd d hd hv)

/-- C3, as written, fails: on the enumeration `[sda (SCSI), vda (VirtIO)]`
with every open refused, `/drives/sda` names an eligible disk and the open
fails with `permission denied`, yet the status is 500 and the body is the
plain text of the message, not a 200 reply carrying a result. -/
theorem driveHandler_open_failure_is_not_200 :
    deniedWorld.Block 0 = (Except.ok sdaVda, 1) ∧
    (∃ d ∈ sdaVda.Disks, d.StorageController ≠ StorageController.VirtIO ∧
      d.Name = TrimPrefix "/drives/sda" "/drives/") ∧
    deniedWorld.Open 1 ("/dev/" ++ TrimPrefix "/drives/sda" "/drives/") =
      (Except.error "permission denied", 2) ∧
    (driveHandler deniedWorld "/drives/sda" 0).resp.status = 500 ∧
    (driveHandler deniedWorld "/drives/sda" 0).resp.body = Body.text "permission denied\n" ∧
    ¬ ((driveHandler deniedWorld "/drives/sda" 0).resp.status = 200 ∧
        (driveHandler deniedWorld "/drives/sda" 0).resp.body =
          Body.json (SmartResult.toJson { Device := "sda", Error := "permission denied" })) := by
  refine ⟨rfl, ⟨⟨"sda", StorageController.SCSI⟩, by decide, by decide, by decide⟩, rfl, rfl, rfl, ?_⟩
  intro h
  exact absurd h.1 (by decide)

/-- C3 amended: when the requested name matches an eligible disk and opening
the device fails with message `m`, `driveHandler` answers with status 500
and the plain-text body `m`; no result object is written and nothing is read
or closed. -/
theorem driveHandler_open_failure_500 {σ : Type} (w : World σ) (urlPath : String)
    (s s1 s2 : σ) (info : BlockInfo) (m : String)
    (hb : w.Block s = (Except.ok info, s1))
    (hf : ∃ d ∈ info.Disks, d.StorageController ≠ StorageController.VirtIO ∧
      d.Name = TrimPrefix urlPath "/drives/")
    (ho : w.Open s1 ("/dev/" ++ TrimPrefix urlPath "/drives/") = (Except.error m, s2)) :
    (driveHandler w urlPath s).resp.status = 500 ∧
    (driveHandler w urlPath s).resp.body = Body.text (m ++ "\n") ∧
    (∀ v, (driveHandler w urlPath s).resp.body ≠ Body.json v) ∧
    (driveHandler w urlPath s).trace =
      [Event.openFail ("/dev/" ++ TrimPrefix urlPath "/drives/")] ∧
    (driveHandler w urlPath s).st = s2 := by
  rw [driveHandler_found w urlPath s s1 info hb (findDrive_of_exists _ _ hf), ho]
  refine ⟨rfl, rfl, ?_, rfl, rfl⟩
  intro v h
  simp [httpError] at h

/-- Witness of the amended C3 on the refused open of `/dev/sda`. -/
theorem driveHandler_open_failure_500_witness :
    (driveHandler deniedWorld "/drives/sda" 0).resp.status = 500 ∧
    (driveHandler deniedWorld "/drives/sda" 0).resp.body =
      Body.text ("permission denied" ++ "\n") :=
  ⟨(driveHandler_open_failure_500 deniedWorld "/drives/sda" 0 1 2 sdaVda "permission denied"
      rfl ⟨⟨"sda", StorageController.SCSI⟩, by decide, by decide, by decide⟩ rfl).1,
    (driveHandler_open_failure_500 deniedWorld "/drives/sda" 0 1 2 sdaVda "permission denied"
      rfl ⟨⟨"sda", StorageController.SCSI⟩, by decide, by decide, by decide⟩ rfl).2.1⟩

theorem TrimPrefix_route : TrimPrefix "/drives/" "/drives/" = "" := by decide

/-- C6, as written, fails: when the enumeration holds a SCSI disk whose name
is the empty string, the request path `/drives/` (empty extracted name) is
matched, the path `/dev/` is opened and read, and the status is 200, not
404. -/
theorem driveHandler_empty_name_is_opened :
    emptyNameWorld.Block 0 =
      (Except.ok { Disks := [{ Name := "", StorageController := StorageController.SCSI }] }, 1) ∧
    TrimPrefix "/drives/" "/drives/" = "" ∧
    (driveHandler emptyNameWorld "/drives/" 0).resp.status = 200 ∧
    (driveHandler emptyNameWorld "/drives/" 0).trace =
      [Event.openOk "/dev/" 3, Event.read 3, Event.close 3] ∧
    ¬ ((driveHandler emptyNameWorld "/drives/" 0).resp.status = 404 ∧
        (driveHandler emptyNameWorld "/drives/" 0).trace = []) := by
  refine ⟨rfl, by decide, rfl, rfl, ?_⟩
  intro h
  exact absurd h.1 (by decide)

/-- C6 amended: after a successful enumeration in which no disk outside the
VirtIO controllers has the empty string as its name, a request whose path
is exactly `/drives/` gets status 404 and nothing is opened. -/
theorem driveHandler_route_prefix_404 {σ : Type} (w : World σ) (s s1 : σ)
    (info : BlockInfo) (hb : w.Block s = (Except.ok info, s1))
    (hn : ∀ d ∈ info.Disks, d.StorageController ≠ StorageController.VirtIO → d.Name ≠ "") :
    TrimPrefix "/drives/" "/drives/" = "" ∧
    (driveHandler w "/drives/" s).resp.status = 404 ∧
    (driveHandler w "/drives/" s).trace = [] ∧
    (driveHandler w "/drives/" s).st = s1 := by
  have hf : findDrive info.Disks (TrimPrefix "/drives/" "/drives/") = false := by
    rw [TrimPrefix_route]
    exact (findDrive_eq_false_iff _ _).2 hn
  rw [driveHandler_missing w "/drives/" s s1 info hb hf]
  exact ⟨TrimPrefix_route, rfl, rfl, rfl⟩

/-- Witness of the amended C6 on the enumeration `[sda (SCSI), vda (VirtIO)]`. -/
theorem driveHandler_route_prefix_404_witness :
    (driveHandler healthyWorld "/drives/" 0).resp.status = 404 ∧
    (driveHandler healthyWorld "/drives/" 0).trace = [] :=
  ⟨(driveHandler_route_prefix_404 healthyWorld 0 1 sdaVda rfl (by decide)).2.1,
    (driveHandler_route_prefix_404 healthyWorld 0 1 sdaVda rfl (by decide)).2.2.1⟩

theorem eligibleNames_eq_nil (disks : List Disk)
    (hv : ∀ d ∈ disks, d.StorageController = StorageController.VirtIO) :
    eligibleNames disks = [] := by
  induction disks with
  | nil => rfl
  | cons d ds ih =>
    rw [eligibleNames_cons, ih (fun x hx => hv x (List.mem_cons_of_mem d hx))]
    simp [hv d (List.mem_cons_self d ds)]

theorem foldl_listStep_all_virtio {σ : Type} (w : World σ) (disks : List Disk)
    (acc : LoopState σ) (hv : ∀ d ∈ disks, d.StorageController = StorageController.VirtIO) :
    disks.foldl (listStep w) acc = acc := by
  induction disks generalizing acc with
  | nil => rfl
  | cons d ds ih =>
    rw [List.foldl_cons, listStep_virtio w acc d (hv d (List.mem_cons_self d ds))]
    exact ih acc (fun x hx => hv x (List.mem_cons_of_mem d hx))

/-- Whenever no enumerated disk is eligible, the body written by
`listDrivesHandler` is the JSON value `null`. -/
theorem listDrivesHandler_no_eligible {σ : Type} (w : World σ) (s s1 : σ) (info : BlockInfo)
    (hb : w.Block s = (Except.ok info, s1))
    (hv : ∀ d ∈ info.Disks, d.StorageController = StorageController.VirtIO) :
    (listDrivesHandler w s).resp = jsonReply Json.null := by
  rw [listDrivesHandler_ok w s s1 info hb]
  simp only [listLoop, foldl_listStep_all_virtio w info.Disks _ hv]
  rfl

/-- C7 fails on the code: for an enumeration holding VirtIO disks only, the
status is 200 and the body written by `listDrivesHandler` is the JSON value
`null`, which is not the empty array. -/
theorem listDrivesHandler_virtual_only_null :
    virtualOnlyWorld.Block 0 =
      (Except.ok { Disks := [{ Name := "vda", StorageController := StorageController.VirtIO }] }, 1) ∧
    (listDrivesHandler virtualOnlyWorld 0).resp.status = 200 ∧
    (listDrivesHandler virtualOnlyWorld 0).resp.body = Body.json Json.null ∧
    (listDrivesHandler virtualOnlyWorld 0).resp.body ≠ Body.json (Json.arr []) := by
  refine ⟨rfl, rfl, rfl, ?_⟩
  intro h
  cases h

theorem attrData_keys (attrs : GenericAttributes) :
    AttrMap.keys (attrData attrs) =
      ["temperature_celsius", "read_blocks", "written_blocks", "power_on_hours",
        "power_cycles"] := rfl

theorem encodeMap_attrData (attrs : GenericAttributes) :
    dataField (attrData attrs) =
      [("data", Json.obj [("power_cycles", Json.num attrs.PowerCycles),
        ("power_on_hours", Json.num attrs.PowerOnHours),
        ("read_blocks", Json.num attrs.Read),
        ("temperature_celsius", Json.num attrs.Temperature),
        ("written_blocks", Json.num attrs.Written)])] := by
  simp +decide [dataField, attrData, encodeMap, sortKeys, insertKey]

theorem wellShaped_not_both (r : SmartResult) (h : r.wellShaped) :
    ¬ (r.hasData ∧ r.hasError) := by
  rintro ⟨hd, he⟩
  rcases h with h | ⟨h, _⟩
  · simp [SmartResult.hasData, h, AttrMap.len] at hd
  · exact he h

theorem wellShaped_keys (r : SmartResult) (h : r.wellShaped) (hd : r.hasData) :
    AttrMap.keys r.Data =
      ["temperature_celsius", "read_blocks", "written_blocks", "power_on_hours",
        "power_cycles"] := by
  rcases h with h | ⟨_, attrs, h⟩
  · simp [SmartResult.hasData, h, AttrMap.len] at hd
  · rw [h, attrData_keys]

theorem listStep_wellShaped {σ : Type} (w : World σ) (acc : LoopState σ) (d : Disk)
    (hacc : ∀ r ∈ Slice.toList acc.results, r.wellShaped) :
    ∀ r ∈ Slice.toList (listStep w acc d).results, r.wellShaped := by
  by_cases hv : d.StorageController = StorageController.VirtIO
  · rw [listStep_virtio w acc d hv]; exact hacc
  · unfold listStep
    simp only [hv, if_false]
    split
    · intro r hr
      simp only [Slice.append, Slice.toList, List.mem_append, List.mem_singleton] at hr
      rcases hr with hr | hr
      · exact hacc r hr
      · subst hr; exact Or.inl rfl
    · split
      · intro r hr
        simp only [Slice.append, Slice.toList, List.mem_append, List.mem_singleton] at hr
        rcases hr with hr | hr
        · exact hacc r hr
        · subst hr; exact Or.inl rfl
      · rename_i attrs _ _
        intro r hr
        simp only [Slice.append, Slice.toList, List.mem_append, List.mem_singleton] at hr
        rcases hr with hr | hr
        · exact hacc r hr
        · subst hr; exact Or.inr ⟨rfl, attrs, rfl⟩

theorem foldl_listStep_wellShaped {σ : Type} (w : World σ) (disks : List Disk)
    (acc : LoopState σ) (hacc : ∀ r ∈ Slice.toList acc.results, r.wellShaped) :
    ∀ r ∈ Slice.toList (disks.foldl (listStep w) acc).results, r.wellShaped := by
  induction disks generalizing acc with
  | nil => exact hacc
  | cons d ds ih => exact ih _ (listStep_wellShaped w acc d hacc)

/-- For every world, no result of the bulk loop has both `data` and `error`
populated, and a populated `data` has exactly the five attribute keys. -/
theorem listLoop_never_both {σ : Type} (w : World σ) (disks : List Disk) (s : σ) :
    ∀ r ∈ Slice.toList (listLoop w disks s).results,
      ¬ (r.hasData ∧ r.hasError) ∧
      (r.hasData → AttrMap.keys r.Data =
        ["temperature_celsius", "read_blocks", "written_blocks", "power_on_hours",
          "power_cycles"]) := by
  intro r hr
  have h := foldl_listStep_wellShaped w disks
    { results := none, deferred := [], trace := [], st := s } (by simp [Slice.toList]) r hr
  exact ⟨wellShaped_not_both r h, wellShaped_keys r h⟩

theorem listStep_exactly_one {σ : Type} (w : World σ) (hm : messagesNonEmpty w)
    (acc : LoopState σ) (d : Disk)
    (hacc : ∀ r ∈ Slice.toList acc.results, (r.hasData ↔ ¬ r.hasError)) :
    ∀ r ∈ Slice.toList (listStep w acc d).results, (r.hasData ↔ ¬ r.hasError) := by
  by_cases hv : d.StorageController = StorageController.VirtIO
  · rw [listStep_virtio w acc d hv]; exact hacc
  · unfold listStep
    simp only [hv, if_false]
    split
    · rename_i err s1 ho
      have hne : err ≠ "" := fun h => hm.1 _ _ s1 (h ▸ ho)
      intro r hr
      simp only [Slice.append, Slice.toList, List.mem_append, List.mem_singleton] at hr
      rcases hr with hr | hr
      · exact hacc r hr
      · subst hr; simp [SmartResult.hasData, SmartResult.hasError, AttrMap.len, hne]
    · split
      · rename_i err s2 hr0
        have hne : err ≠ "" := fun h => hm.2 _ _ s2 (h ▸ hr0)
        intro r hr
        simp only [Slice.append, Slice.toList, List.mem_append, List.mem_singleton] at hr
        rcases hr with hr | hr
        · exact hacc r hr
        · subst hr; simp [SmartResult.hasData, SmartResult.hasError, AttrMap.len, hne]
      · intro r hr
        simp only [Slice.append, Slice.toList, List.mem_append, List.mem_singleton] at hr
        rcases hr with hr | hr
        · exact hacc r hr
        · subst hr; simp [SmartResult.hasData, SmartResult.hasError, AttrMap.len, attrData]

/-- When no failure message is empty, every result of the bulk loop has
exactly one of `data` and `error` populated. -/
theorem listLoop_exactly_one {σ : Type} (w : World σ) (hm : messagesNonEmpty w)
    (disks : List Disk) (s : σ) :
    ∀ r ∈ Slice.toList (listLoop w disks s).results, (r.hasData ↔ ¬ r.hasError) := by
  unfold listLoop
  generalize hacc0 : ({ results := none, deferred := [], trace := [], st := s } : LoopState σ) = acc
  have hacc : ∀ r ∈ Slice.toList acc.results, (r.hasData ↔ ¬ r.hasError) := by
    subst hacc0; simp [Slice.toList]
  clear hacc0
  induction disks generalizing acc with
  | nil => exact hacc
  | cons d ds ih => exact ih _ (listStep_exactly_one w hm acc d hacc)

/-- C2 fails on the code: when the open of `/dev/sda` fails with an error
whose message is the empty string, the result recorded by
`listDrivesHandler` has neither `data` nor `error` populated, and the body
is an array whose only object has the single key `device`. -/
theorem listDrivesHandler_silent_open_neither :
    silentOpenWorld.Block 0 = (Except.ok sdaVda, 1) ∧
    silentOpenWorld.Open 1 "/dev/sda" = (Except.error "", 2) ∧
    (listLoop silentOpenWorld sdaVda.Disks 1).results =
      some [{ Device := "sda", Data := none, Error := "" }] ∧
    ¬ SmartResult.hasData { Device := "sda", Data := none, Error := "" } ∧
    ¬ SmartResult.hasError { Device := "sda", Data := none, Error := "" } ∧
    (listDrivesHandler silentOpenWorld 0).resp.body =
      Body.json (Json.arr [Json.obj [("device", Json.str "sda")]]) := by
  refine ⟨rfl, rfl, rfl, ?_, ?_, rfl⟩
  · simp [SmartResult.hasData, AttrMap.len]
  · simp [SmartResult.hasError]

/-- For every non-empty read failure message, and for every successful
read, the body of `driveHandler` is the single object the scenario
describes. -/
theorem driveHandler_read_outcomes {σ : Type} (w : World σ) (urlPath : String)
    (s s1 s2 s3 : σ) (info : BlockInfo) (dev : Handle)
    (hb : w.Block s = (Except.ok info, s1))
    (hf : findDrive info.Disks (TrimPrefix urlPath "/drives/") = true)
    (ho : w.Open s1 ("/dev/" ++ TrimPrefix urlPath "/drives/") = (Except.ok dev, s2)) :
    (∀ m, m ≠ "" → w.ReadGenericAttributes s2 dev = (Except.error m, s3) →
      (driveHandler w urlPath s).resp.status = 200 ∧
      (driveHandler w urlPath s).resp.body =
        Body.json (Json.obj [("device", Json.str (TrimPrefix urlPath "/drives/")),
          ("error", Json.str m)])) ∧
    (∀ attrs, w.ReadGenericAttributes s2 dev = (Except.ok attrs, s3) →
      (driveHandler w urlPath s).resp.status = 200 ∧
      (driveHandler w urlPath s).resp.body =
        Body.json (Json.obj [("device", Json.str (TrimPrefix urlPath "/drives/")),
          ("data", Json.obj [("power_cycles", Json.num attrs.PowerCycles),
            ("power_on_hours", Json.num attrs.PowerOnHours),
            ("read_blocks", Json.num attrs.Read),
            ("temperature_celsius", Json.num attrs.Temperature),
            ("written_blocks", Json.num attrs.Written)])])) := by
  rw [driveHandler_found w urlPath s s1 info hb hf, ho]
  constructor
  · intro m hm hr
    simp only [hr]
    refine ⟨rfl, ?_⟩
    simp [jsonReply, SmartResult.toJson, dataField, errorField, hm]
  · intro attrs hr
    simp only [hr]
    refine ⟨rfl, ?_⟩
    simp [jsonReply, SmartResult.toJson, encodeMap_attrData, errorField]

/-- C8 fails on the code for the empty message: when `/dev/sda` opens and
the read fails with an error whose message is the empty string, the status
is 200 and the body of `driveHandler` is the object with the single key
`device`; it has no `error` key. -/
theorem driveHandler_silent_read_no_error_key :
    silentReadWorld.Block 0 = (Except.ok sdaVda, 1) ∧
    silentReadWorld.Open 1 "/dev/sda" = (Except.ok 3, 2) ∧
    silentReadWorld.ReadGenericAttributes 2 3 = (Except.error "", 3) ∧
    (driveHandler silentReadWorld "/drives/sda" 0).resp.status = 200 ∧
    (driveHandler silentReadWorld "/drives/sda" 0).resp.body =
      Body.json (Json.obj [("device", Json.str "sda")]) ∧
    (driveHandler silentReadWorld "/drives/sda" 0).resp.body ≠
      Body.json (Json.obj [("device", Json.str "sda"), ("error", Json.str "")]) := by
  refine ⟨rfl, rfl, rfl, rfl, rfl, ?_⟩
  intro h
  have h2 : (Body.json (Json.obj [("device", Json.str "sda")]) : Body) =
      Body.json (Json.obj [("device", Json.str "sda"), ("error", Json.str "")]) := h
  simp at h2

/-! ## Open/close discipline -/

theorem opened_append (h : Handle) (a b : List Event) :
    opened h (a ++ b) = opened h a + opened h b := by
  simp [opened, List.countP_append]

theorem closed_append (h : Handle) (a b : List Event) :
    closed h (a ++ b) = closed h a + closed h b := by
  simp [closed, List.countP_append]

theorem closed_map_close (h : Handle) (hs : List Handle) :
    closed h (hs.map Event.close) = hs.count h := by
  induction hs with
  | nil => rfl
  | cons k ks ih =>
    have ih2 : List.countP (fun e => match e with
        | Event.close k => decide (k = h)
        | _ => false) (ks.map Event.close) = ks.count h := ih
    by_cases hk : k = h
    · simp [closed, List.countP_cons, List.count_cons, hk, ih2]
    · simp [closed, List.countP_cons, List.count_cons, hk, ih2]

theorem opened_map_close (h : Handle) (hs : List Handle) :
    opened h (hs.map Event.close) = 0 := by
  induction hs with
  | nil => rfl
  | cons k ks ih =>
    have ih2 : List.countP (fun e => match e with
        | Event.openOk _ k => decide (k = h)
        | _ => false) (ks.map Event.close) = 0 := ih
    simp [opened, List.countP_cons, ih2]

theorem closed_le_of_prefix (h : Handle) (a b : List Event) (hp : a <+: b) :
    closed h a ≤ closed h b := by
  obtain ⟨t, rfl⟩ := hp
  rw [closed_append]
  exact Nat.le_add_right _ _

/-- A trace made of calls without any close, followed by the closes of the
handles `hs`, where `hs` holds each handle as often as it was opened, is
balanced, and so that no prefix closes more than it opened. -/
theorem balanced_of_deferred (a : List Event) (hs : List Handle)
    (ha : ∀ h, closed h a = 0) (hc : ∀ h, hs.count h = opened h a) (h : Handle) :
    closed h (a ++ hs.map Event.close) = opened h (a ++ hs.map Event.close) ∧
    ∀ pre, pre <+: a ++ hs.map Event.close → closed h pre ≤ opened h pre := by
  constructor
  · rw [closed_append, opened_append, ha, closed_map_close, opened_map_close, hc]
    simp
  · rintro pre ⟨t, ht⟩
    rcases List.append_eq_append_iff.1 ht with ⟨a', ha', _⟩ | ⟨c', hc', hb⟩
    · have hle : closed h pre ≤ closed h a := closed_le_of_prefix h pre a ⟨a', ha'.symm⟩
      rw [ha] at hle
      exact Nat.le_trans hle (Nat.zero_le _)
    · have hle : closed h c' ≤ closed h (hs.map Event.close) :=
        closed_le_of_prefix h c' _ ⟨t, hb.symm⟩
      rw [closed_map_close, hc] at hle
      rw [hc', closed_append, opened_append, ha]
      omega

theorem listStep_discipline {σ : Type} (w : World σ) (acc : LoopState σ) (d : Disk)
    (hacc : ∀ h, closed h acc.trace = 0 ∧ acc.deferred.count h = opened h acc.trace) :
    ∀ h, closed h (listStep w acc d).trace = 0 ∧
      (listStep w acc d).deferred.count h = opened h (listStep w acc d).trace := by
  by_cases hv : d.StorageController = StorageController.VirtIO
  · rw [listStep_virtio w acc d hv]; exact hacc
  · unfold listStep
    simp only [hv, if_false]
    intro h
    obtain ⟨h1, h2⟩ := hacc h
    split
    · simp only [closed_append, opened_append, h1, h2]
      simp [closed, opened]
    · rename_i dev s1 _
      have key : closed h (acc.trace ++ [Event.openOk ("/dev/" ++ d.Name) dev, Event.read dev]) = 0 ∧
          (dev :: acc.deferred).count h =
            opened h (acc.trace ++ [Event.openOk ("/dev/" ++ d.Name) dev, Event.read dev]) := by
        rw [closed_append, opened_append, h1, List.count_cons, h2]
        by_cases hk : dev = h
        · simp [closed, opened, hk]
        · simp [closed, opened, hk]
      split <;> exact key

theorem listLoop_discipline {σ : Type} (w : World σ) (disks : List Disk) (s : σ) :
    ∀ h, closed h (listLoop w disks s).trace = 0 ∧
      (listLoop w disks s).deferred.count h = opened h (listLoop w disks s).trace := by
  unfold listLoop
  generalize hacc0 : ({ results := none, deferred := [], trace := [], st := s } : LoopState σ) = acc
  have hacc : ∀ h, closed h acc.trace = 0 ∧ acc.deferred.count h = opened h acc.trace := by
    subst hacc0; intro h; simp [closed, opened]
  clear hacc0
  induction disks generalizing acc with
  | nil => exact hacc
  | cons d ds ih => exact ih _ (listStep_discipline w acc d hacc)

theorem driveHandler_trace_cases {σ : Type} (w : World σ) (urlPath : String) (s : σ) :
    (driveHandler w urlPath s).trace = [] ∨
    (∃ p, (driveHandler w urlPath s).trace = [Event.openFail p]) ∨
    (∃ p dev, (driveHandler w urlPath s).trace =
      [Event.openOk p dev, Event.read dev, Event.close dev]) := by
  unfold driveHandler
  dsimp only
  split
  · exact Or.inl rfl
  · split
    · exact Or.inl rfl
    · split
      · exact Or.inr (Or.inl ⟨_, rfl⟩)
      · split <;> exact Or.inr (Or.inr ⟨_, _, rfl⟩)

/-- The trace field of either handler is balanced: each handle is closed as
often as an open succeeded with it, and no prefix closes a handle more often
than it was opened before. -/
theorem trace_balanced {σ : Type} (w : World σ) (urlPath : String) (s : σ)
    (h : Handle) :
    (closed h (listDrivesHandler w s).trace = opened h (listDrivesHandler w s).trace ∧
      ∀ pre, pre <+: (listDrivesHandler w s).trace → closed h pre ≤ opened h pre) ∧
    (closed h (driveHandler w urlPath s).trace = opened h (driveHandler w urlPath s).trace ∧
      ∀ pre, pre <+: (driveHandler w urlPath s).trace → closed h pre ≤ opened h pre) := by
  have hnil : closed h ([] : List Event) = opened h ([] : List Event) ∧
      ∀ pre, pre <+: ([] : List Event) → closed h pre ≤ opened h pre := by
    refine ⟨rfl, ?_⟩
    intro pre hp
    rw [List.prefix_nil.1 hp]
    exact Nat.le_refl _
  constructor
  · cases hb : w.Block s with
    | mk r s1 =>
      cases r with
      | error e =>
        have hl : (listDrivesHandler w s).trace = [] := by simp [listDrivesHandler, hb]
        rw [hl]; exact hnil
      | ok info =>
        rw [listDrivesHandler_ok w s s1 info hb]
        exact balanced_of_deferred _ _ (fun k => (listLoop_discipline w info.Disks s1 k).1)
          (fun k => (listLoop_discipline w info.Disks s1 k).2) h
  · rcases driveHandler_trace_cases w urlPath s with ht | ⟨p, ht⟩ | ⟨p, dev, ht⟩
    · rw [ht]; exact hnil
    · rw [ht]
      exact balanced_of_deferred [Event.openFail p] [] (fun k => by simp [closed])
        (fun k => by simp [opened]) h
    · rw [ht]
      exact balanced_of_deferred [Event.openOk p dev, Event.read dev] [dev]
        (fun k => by simp [closed])
        (fun k => by by_cases hk : dev = k <;> simp [opened, List.count_cons, hk]) h

/-! ## The two handlers agree -/

theorem driveHandler_status_404_iff {σ : Type} (w : World σ) (urlPath : String) (s s1 : σ)
    (info : BlockInfo) (hb : w.Block s = (Except.ok info, s1)) :
    (driveHandler w urlPath s).resp.status = 404 ↔
      findDrive info.Disks (TrimPrefix urlPath "/drives/") = false := by
  cases hf : findDrive info.Disks (TrimPrefix urlPath "/drives/") with
  | false =>
    rw [driveHandler_missing w urlPath s s1 info hb hf]
    exact ⟨fun _ => rfl, fun _ => rfl⟩
  | true =>
    rw [driveHandler_found w urlPath s s1 info hb hf]
    constructor
    · intro h
      exfalso
      revert h
      split
      · simp [httpError, StatusInternalServerError]
      · split <;> simp [jsonReply, StatusOK]
    · intro h
      exact absurd h (by decide)

theorem queryResult_device (openF : String → Except String Handle)
    (readF : Handle → Except String GenericAttributes) (name : String) :
    (queryResult openF readF name).Device = name := by
  unfold queryResult
  split
  · rfl
  · split <;> rfl

theorem listStep_deterministic {σ : Type} (w : World σ)
    (openF : String → Except String Handle)
    (readF : Handle → Except String GenericAttributes)
    (hO : ∀ s p, (w.Open s p).1 = openF p)
    (hR : ∀ s h, (w.ReadGenericAttributes s h).1 = readF h)
    (acc : LoopState σ) (d : Disk) :
    Slice.toList (listStep w acc d).results =
      Slice.toList acc.results ++ (eligibleNames [d]).map (queryResult openF readF) := by
  by_cases hv : d.StorageController = StorageController.VirtIO
  · simp [listStep, hv, eligibleNames]
  · unfold listStep
    simp only [hv, if_false]
    have hel : eligibleNames [d] = [d.Name] := by simp [eligibleNames, hv]
    rw [hel]
    split
    · rename_i err s1 ho
      have h1 : openF ("/dev/" ++ d.Name) = Except.error err := by
        rw [← hO acc.st ("/dev/" ++ d.Name), ho]
      simp [Slice.append, Slice.toList, queryResult, h1]
    · rename_i dev s1 ho
      have h1 : openF ("/dev/" ++ d.Name) = Except.ok dev := by
        rw [← hO acc.st ("/dev/" ++ d.Name), ho]
      split
      · rename_i err s2 hr
        have h2 : readF dev = Except.error err := by rw [← hR s1 dev, hr]
        simp [Slice.append, Slice.toList, queryResult, h1, h2]
      · rename_i attrs s2 hr
        have h2 : readF dev = Except.ok attrs := by rw [← hR s1 dev, hr]
        simp [Slice.append, Slice.toList, queryResult, h1, h2]

theorem eligibleNames_append_singleton (d : Disk) (ds : List Disk) :
    eligibleNames (d :: ds) = eligibleNames [d] ++ eligibleNames ds := by
  rw [eligibleNames_cons, eligibleNames_cons]
  simp [eligibleNames]

theorem foldl_listStep_deterministic {σ : Type} (w : World σ)
    (openF : String → Except String Handle)
    (readF : Handle → Except String GenericAttributes)
    (hO : ∀ s p, (w.Open s p).1 = openF p)
    (hR : ∀ s h, (w.ReadGenericAttributes s h).1 = readF h)
    (disks : List Disk) (acc : LoopState σ) :
    Slice.toList (disks.foldl (listStep w) acc).results =
      Slice.toList acc.results ++ (eligibleNames disks).map (queryResult openF readF) := by
  induction disks generalizing acc with
  | nil => simp [eligibleNames]
  | cons d ds ih =>
    rw [List.foldl_cons, ih, listStep_deterministic w openF readF hO hR,
      eligibleNames_append_singleton d ds, List.map_append, List.append_assoc]

theorem listLoop_deterministic {σ : Type} (w : World σ)
    (openF : String → Except String Handle)
    (readF : Handle → Except String GenericAttributes)
    (hO : ∀ s p, (w.Open s p).1 = openF p)
    (hR : ∀ s h, (w.ReadGenericAttributes s h).1 = readF h)
    (disks : List Disk) (s : σ) :
    Slice.toList (listLoop w disks s).results =
      (eligibleNames disks).map (queryResult openF readF) := by
  unfold listLoop
  rw [foldl_listStep_deterministic w openF readF hO hR]
  simp [Slice.toList]

theorem find_queryResult (openF : String → Except String Handle)
    (readF : Handle → Except String GenericAttributes) (name : String) (names : List String)
    (hn : name ∈ names) :
    (names.map (queryResult openF readF)).find? (fun x => x.Device == name) =
      some (queryResult openF readF name) := by
  induction names with
  | nil => simp at hn
  | cons n ns ih =>
    rw [List.map_cons, List.find?_cons]
    by_cases h : n = name
    · simp [queryResult_device, h]
    · have hmem : name ∈ ns := by
        rcases List.mem_cons.1 hn with h1 | h1
        · exact absurd h1.symm h
        · exact h1
      have hb : (n == name) = false := by simp [h]
      simp only [queryResult_device, hb]
      exact ih hmem

theorem driveHandler_deterministic {σ : Type} (w : World σ)
    (openF : String → Except String Handle)
    (readF : Handle → Except String GenericAttributes)
    (hO : ∀ s p, (w.Open s p).1 = openF p)
    (hR : ∀ s h, (w.ReadGenericAttributes s h).1 = readF h)
    (urlPath : String) (s s1 : σ) (info : BlockInfo) (dev : Handle)
    (hb : w.Block s = (Except.ok info, s1))
    (hf : findDrive info.Disks (TrimPrefix urlPath "/drives/") = true)
    (ho : openF ("/dev/" ++ TrimPrefix urlPath "/drives/") = Except.ok dev) :
    (driveHandler w urlPath s).resp =
      jsonReply (SmartResult.toJson (queryResult openF readF (TrimPrefix urlPath "/drives/"))) := by
  rw [driveHandler_found w urlPath s s1 info hb hf]
  split
  · rename_i err s2 ho2
    have h1 := hO s1 ("/dev/" ++ TrimPrefix urlPath "/drives/")
    rw [ho2, ho] at h1
    cases h1
  · rename_i dev2 s2 ho2
    have h1 := hO s1 ("/dev/" ++ TrimPrefix urlPath "/drives/")
    rw [ho2, ho] at h1
    have hdev : dev2 = dev := by injection h1
    subst hdev
    split
    · rename_i err s3 hr
      have h2 : readF dev2 = Except.error err := by rw [← hR s2 dev2, hr]
      simp [queryResult, ho, h2]
    · rename_i attrs s3 hr
      have h2 : readF dev2 = Except.ok attrs := by rw [← hR s2 dev2, hr]
      simp [queryResult, ho, h2]

theorem listDrivesHandler_deviceFields {σ : Type} (w : World σ) (s s1 : σ)
    (info : BlockInfo) (hb : w.Block s = (Except.ok info, s1)) :
    Body.deviceFields (listDrivesHandler w s).resp.body =
      (eligibleNames info.Disks).map some := by
  rw [listDrivesHandler_ok w s s1 info hb]
  simp only [jsonReply]
  rw [deviceFields_encodeResults, ← listLoop_devices w info.Disks s1, List.map_map]
  rfl

/-- C10: over the same successful enumeration, `driveHandler` answers 404
exactly when no result of `listDrivesHandler` carries the requested name as
its `device`; and when open and read answer as functions of their argument
and the open of the requested device succeeds, the object written by
`driveHandler` (status 200) encodes the first result of `listDrivesHandler`
whose `device` is that name. -/
theorem handlers_agree {σ : Type} (w : World σ) (urlPath : String) (s s1 t t1 : σ)
    (info : BlockInfo)
    (hb : w.Block s = (Except.ok info, s1)) (hb2 : w.Block t = (Except.ok info, t1)) :
    ((driveHandler w urlPath s).resp.status = 404 ↔
      some (TrimPrefix urlPath "/drives/") ∉
        Body.deviceFields (listDrivesHandler w t).resp.body) ∧
    (∀ (openF : String → Except String Handle)
        (readF : Handle → Except String GenericAttributes) (dev : Handle),
      (∀ x p, (w.Open x p).1 = openF p) →
      (∀ x h, (w.ReadGenericAttributes x h).1 = readF h) →
      TrimPrefix urlPath "/drives/" ∈ eligibleNames info.Disks →
      openF ("/dev/" ++ TrimPrefix urlPath "/drives/") = Except.ok dev →
      ∃ (rs : Slice SmartResult) (r : SmartResult),
        (listDrivesHandler w t).resp.body = Body.json (encodeResults rs) ∧
        (Slice.toList rs).find? (fun x => x.Device == TrimPrefix urlPath "/drives/") = some r ∧
        (driveHandler w urlPath s).resp.status = 200 ∧
        (driveHandler w urlPath s).resp.body = Body.json (SmartResult.toJson r)) := by
  constructor
  · rw [driveHandler_status_404_iff w urlPath s s1 info hb,
      listDrivesHandler_deviceFields w t t1 info hb2]
    rw [← Bool.not_eq_true, findDrive_eq_true_iff]
    simp
  · intro openF readF dev hO hR hmem ho
    have hf := (findDrive_eq_true_iff info.Disks _).2 hmem
    refine ⟨(listLoop w info.Disks t1).results, queryResult openF readF (TrimPrefix urlPath "/drives/"), ?_, ?_, ?_, ?_⟩
    · rw [listDrivesHandler_ok w t t1 info hb2]
      rfl
    · rw [listLoop_deterministic w openF readF hO hR]
      exact find_queryResult openF readF _ _ hmem
    · rw [driveHandler_deterministic w openF readF hO hR urlPath s s1 info dev hb hf ho]
      rfl
    · rw [driveHandler_deterministic w openF readF hO hR urlPath s s1 info dev hb hf ho]
      rfl

/-- Witness of C10 on the enumeration `[sda (SCSI), vda (VirtIO)]` with
every open and read succeeding: `/drives/vda` is answered 404, and
`/drives/sda` is answered with the first element of the bulk listing. -/
theorem handlers_agree_witness :
    healthyWorld.Block 0 = (Except.ok sdaVda, 1) ∧
    ((driveHandler healthyWorld "/drives/vda" 0).resp.status = 404 ↔
      some (TrimPrefix "/drives/vda" "/drives/") ∉
        Body.deviceFields (listDrivesHandler healthyWorld 0).resp.body) ∧
    ∃ (rs : Slice SmartResult) (r : SmartResult),
      (listDrivesHandler healthyWorld 0).resp.body = Body.json (encodeResults rs) ∧
      (Slice.toList rs).find? (fun x => x.Device == TrimPrefix "/drives/sda" "/drives/") =
        some r ∧
      (driveHandler healthyWorld "/drives/sda" 0).resp.status = 200 ∧
      (driveHandler healthyWorld "/drives/sda" 0).resp.body = Body.json (SmartResult.toJson r) :=
  ⟨rfl, (handlers_agree healthyWorld "/drives/vda" 0 1 0 1 sdaVda rfl rfl).1,
    (handlers_agree healthyWorld "/drives/sda" 0 1 0 1 sdaVda rfl rfl).2
      (fun _ => Except.ok 3) (fun _ => Except.ok sampleAttrs) 3 (fun _ _ => rfl)
      (fun _ _ => rfl) (by decide) rfl⟩

/-! ## The calls actually made on the reader -/

theorem listStep_recording {σ : Type} (w : World σ) (log : List Event) (acc : LoopState σ)
    (d : Disk) :
    listStep (recording w) (LoopState.observed log acc) d =
      LoopState.observed log (listStep w acc d) := by
  by_cases hv : d.StorageController = StorageController.VirtIO
  · rw [listStep_virtio _ _ d hv, listStep_virtio _ _ d hv]
  · unfold listStep
    simp only [hv, if_false]
    cases ho : w.Open acc.st ("/dev/" ++ d.Name) with
    | mk o s1 =>
      cases o with
      | error err =>
        simp [recording, LoopState.observed, ho, List.append_assoc]
      | ok dev =>
        cases hr : w.ReadGenericAttributes s1 dev with
        | mk a s2 =>
          cases a with
          | error err => simp [recording, LoopState.observed, ho, hr, List.append_assoc]
          | ok attrs => simp [recording, LoopState.observed, ho, hr, List.append_assoc]

theorem foldl_listStep_recording {σ : Type} (w : World σ) (log : List Event)
    (disks : List Disk) (acc : LoopState σ) :
    disks.foldl (listStep (recording w)) (LoopState.observed log acc) =
      LoopState.observed log (disks.foldl (listStep w) acc) := by
  induction disks generalizing acc with
  | nil => rfl
  | cons d ds ih => rw [List.foldl_cons, List.foldl_cons, listStep_recording, ih]

theorem listLoop_recording {σ : Type} (w : World σ) (log : List Event) (disks : List Disk)
    (s : σ) :
    listLoop (recording w) disks (s, log) = LoopState.observed log (listLoop w disks s) := by
  unfold listLoop
  rw [← foldl_listStep_recording]
  simp [LoopState.observed]

theorem runDeferred_recording {σ : Type} (w : World σ) (hs : List Handle) (s : σ)
    (log : List Event) :
    runDeferred (recording w) hs (s, log) = (runDeferred w hs s, log ++ hs.map Event.close) := by
  induction hs generalizing s log with
  | nil => simp [runDeferred]
  | cons k ks ih =>
    have step : runDeferred (recording w) (k :: ks) (s, log) =
        runDeferred (recording w) ks (w.Close s k, log ++ [Event.close k]) := rfl
    have step2 : runDeferred w (k :: ks) s = runDeferred w ks (w.Close s k) := rfl
    rw [step, ih, step2]
    simp [List.append_assoc]

/-- Running `listDrivesHandler` over the observed world gives the same
response, leaves `w` in the same state, and the log of the calls made is the
handler's trace. -/
theorem listDrivesHandler_recording {σ : Type} (w : World σ) (s : σ) (log : List Event) :
    (listDrivesHandler (recording w) (s, log)).resp = (listDrivesHandler w s).resp ∧
    (listDrivesHandler (recording w) (s, log)).st =
      ((listDrivesHandler w s).st, log ++ (listDrivesHandler w s).trace) := by
  cases hb : w.Block s with
  | mk r s1 =>
    have hb2 : (recording w).Block (s, log) = (r, (s1, log)) := by
      simp [recording, hb]
    cases r with
    | error e =>
      simp [listDrivesHandler, hb, hb2]
    | ok info =>
      rw [listDrivesHandler_ok (recording w) (s, log) (s1, log) info hb2,
        listDrivesHandler_ok w s s1 info hb, listLoop_recording]
      simp only [LoopState.observed]
      rw [runDeferred_recording]
      simp [List.append_assoc]

/-- Running `driveHandler` over the observed world gives the same response,
leaves `w` in the same state, and the log of the calls made is the handler's
trace. -/
theorem driveHandler_recording {σ : Type} (w : World σ) (urlPath : String) (s : σ)
    (log : List Event) :
    (driveHandler (recording w) urlPath (s, log)).resp = (driveHandler w urlPath s).resp ∧
    (driveHandler (recording w) urlPath (s, log)).st =
      ((driveHandler w urlPath s).st, log ++ (driveHandler w urlPath s).trace) := by
  cases hb : w.Block s with
  | mk r s1 =>
    have hb2 : (recording w).Block (s, log) = (r, (s1, log)) := by
      simp [recording, hb]
    cases r with
    | error e =>
      simp [driveHandler, hb, hb2]
    | ok info =>
      cases hf : findDrive info.Disks (TrimPrefix urlPath "/drives/") with
      | false =>
        rw [driveHandler_missing (recording w) urlPath (s, log) (s1, log) info hb2 hf,
          driveHandler_missing w urlPath s s1 info hb hf]
        simp
      | true =>
        rw [driveHandler_found (recording w) urlPath (s, log) (s1, log) info hb2 hf,
          driveHandler_found w urlPath s s1 info hb hf]
        cases ho : w.Open s1 ("/dev/" ++ TrimPrefix urlPath "/drives/") with
        | mk o s2 =>
          cases o with
          | error err => simp [recording, ho]
          | ok dev =>
            cases hr : w.ReadGenericAttributes s2 dev with
            | mk a s3 =>
              cases a with
              | error err => simp [recording, ho, hr]
              | ok attrs => simp [recording, ho, hr]

/-- C9: observe any world `w` by logging every call made on its `Open`,
`ReadGenericAttributes` and `Close`. For every `w`, start state and request
path, in the log left by `listDrivesHandler` and in the log left by
`driveHandler`, each handle is passed to `Close` exactly as many times as an
`Open` succeeded with it (once per successful open, also when the read
fails), and no prefix of the log closes a handle more often than it was
opened before, so nothing is closed that was not opened; the log is the
handler's trace and the observation changes neither the response nor the
state of `w`. -/
theorem handles_closed_once {σ : Type} (w : World σ) (urlPath : String) (s : σ)
    (h : Handle) :
    ((listDrivesHandler (recording w) (s, [])).resp = (listDrivesHandler w s).resp ∧
      (listDrivesHandler (recording w) (s, [])).st =
        ((listDrivesHandler w s).st, (listDrivesHandler w s).trace) ∧
      closed h (listDrivesHandler (recording w) (s, [])).st.2 =
        opened h (listDrivesHandler (recording w) (s, [])).st.2 ∧
      ∀ pre, pre <+: (listDrivesHandler (recording w) (s, [])).st.2 →
        closed h pre ≤ opened h pre) ∧
    ((driveHandler (recording w) urlPath (s, [])).resp = (driveHandler w urlPath s).resp ∧
      (driveHandler (recording w) urlPath (s, [])).st =
        ((driveHandler w urlPath s).st, (driveHandler w urlPath s).trace) ∧
      closed h (driveHandler (recording w) urlPath (s, [])).st.2 =
        opened h (driveHandler (recording w) urlPath (s, [])).st.2 ∧
      ∀ pre, pre <+: (driveHandler (recording w) urlPath (s, [])).st.2 →
        closed h pre ≤ opened h pre) := by
  have hl := listDrivesHandler_recording w s []
  have hd := driveHandler_recording w urlPath s []
  have hb := trace_balanced w urlPath s h
  rw [List.nil_append] at hl hd
  refine ⟨⟨hl.1, hl.2, ?_, ?_⟩, ⟨hd.1, hd.2, ?_, ?_⟩⟩
  · rw [hl.2]; exact hb.1.1
  · rw [hl.2]; exact hb.1.2
  · rw [hd.2]; exact hb.2.1
  · rw [hd.2]; exact hb.2.2

end Smartctld
